import Mathlib

/-! Verification of the firmware-update orchestration in
    terraform-provider-redfish (redfish/resource_redfish_firmware.go).

    The Go handlers are shallowly embedded as pure Lean functions.  Device and
    filesystem responses are explicit inputs (`Env`); an event trace records
    every attempted network call and every acquired or released file handle, so
    that temporal and resource-safety properties can be stated over the trace.
    Error returns (`diag.Errorf` sites) become an `Option UpdateError`. -/

set_option maxRecDepth 4000

/-- Firmware detail record (Go struct `Firmware`; the embedded `common.Entity`
    contributes the `ODataID` identifier used by `d.SetId`).  The private
    `rawData` byte field is never consulted by the handlers and is omitted. -/
structure Firmware where
  ODataID : String
  Description : String
  Name : String
  Version : String
deriving DecidableEq, Repr

/-- Result of `service.UpdateService()`: the two URIs the resource consumes. -/
structure UpdateService where
  FirmwareInventory : String
  HTTPPushURI : String
deriving DecidableEq, Repr

/-- Caller-supplied configuration (`d.Get` of name, version, local_file,
    signature_file, update_recovery_set).  `d.GetOk` returns `ok = false`
    exactly when the stored value is the zero value ("" resp. false), and the
    handler then substitutes that very zero value, so the request fields carry
    the post-defaulting values directly. -/
structure UpdateRequest where
  name : String
  version : String
  localFile : String
  signatureFile : String
  updateRecoverySet : Bool
deriving DecidableEq, Repr

/-- Terraform resource-data attributes written by the handlers
    (`d.Set` / `d.SetId`).  `none` means the attribute was not touched. -/
structure ResourceState where
  id : String
  taskURI : Option String
  versionAttr : Option String
  signatureFileAttr : Option String
  updateRecoverySetAttr : Option Bool
deriving DecidableEq, Repr

/-- One constructor per `diag.Errorf` site reachable in the embedded fragment
    of `resourceRedfishFirmwareUpdate` / `resourceRedfishFirmwareRead`. -/
inductive UpdateError where
  | inventoryFetch
  | firmwareDetails
  | sessionFetch
  | localFileOpen
  | signatureFileOpen
  | postFailed
deriving DecidableEq, Repr

/-- Spec taxonomy: both file-open failures are `LocalIOError`s. -/
def isLocalIOError : UpdateError → Bool
  | UpdateError.localFileOpen => true
  | UpdateError.signatureFileOpen => true
  | _ => false

/-- Observable effects: attempted network calls (`conn.Get`, the multipart
    `POST`) and successful file-handle acquisitions / releases. -/
inductive Event where
  | netGet (uri : String)
  | netPost (uri : String) (parts : List (String × String))
      (headers : List (String × String))
  | openFile (path : String)
  | closeFile (path : String)
deriving DecidableEq, Repr

/-- Environment: device and filesystem responses consumed by one invocation.
    `none` / `false` model the corresponding Go error returns. -/
structure Env where
  updateService : Option UpdateService
  getInventory : String → Option (List String)
  getFirmware : String → Option Firmware
  session : Option String
  openOk : String → Bool
  fileContent : String → String
  postOk : Bool

/-- Outcome of one handler invocation: the diagnostics error (if any), the
    event trace, and the final resource state. -/
structure UpdateResult where
  error : Option UpdateError
  events : List Event
  state : ResourceState
deriving DecidableEq, Repr

/-- `FirmwareInventory.Firmwares`: resolves each member link in order; on the
    first failing member it executes `return result, nil`, i.e. it returns the
    records resolved so far together with a nil error and resolves nothing
    further.  The second component is the returned Go error. -/
def Firmwares (get : String → Option Firmware) :
    List String → List Firmware × Option String
  | [] => ([], none)
  | link :: links =>
    match get link with
    | none => ([], none)
    | some fw =>
      let r := Firmwares get links
      (fw :: r.1, r.2)

/-- Network calls issued by `Firmwares`: one `conn.Get` per member link up to
    and including the first failing link (the `Get` of the failing member is
    still attempted before its error is observed). -/
def firmwaresEvents (get : String → Option Firmware) : List String → List Event
  | [] => []
  | link :: links =>
    match get link with
    | none => [Event.netGet link]
    | some _ => Event.netGet link :: firmwaresEvents get links

/-- The member-matching loop of the handlers: first record whose `Name` equals
    the requested name, `break` on the first hit. -/
def findFirmware (nm : String) : List Firmware → Option Firmware
  | [] => none
  | f :: fs => if f.Name = nm then some f else findFirmware nm fs

/-- The version gate of line 121: upload when no record matched or the matched
    record's version differs from the requested one (exact string inequality). -/
def needsUpload (firmware : Option Firmware) (version : String) : Bool :=
  match firmware with
  | none => true
  | some f => f.Version != version

/-- The constant `parameters` part sent by the upload (source line 140): a
    single-quoted JSON-like literal.  Written with `\x7b`/`\x7d`/`\x27` escapes
    for the braces and the apostrophes; the runtime string is byte-identical to
    the Go literal. -/
def parametersString : String :=
  "\x7b\x27UpdateRepository\x27: true, \x27UpdateTarget\x27: true, \x27ETag\x27: \x27atag\x27, \x27Section\x27: 0\x7d"

/-- The multipart parts (name, content).  Go iterates the `values` map in
    unspecified order; the model fixes the insertion order - the properties
    below only depend on the set of names and each part's content. -/
def uploadValues (token : String) (env : Env) (req : UpdateRequest) :
    List (String × String) :=
  [("sessionKey", token), ("parameters", parametersString),
   ("file", env.fileContent req.localFile)]
  ++ (if req.signatureFile != "" then
        [("compsig", env.fileContent req.signatureFile)]
      else [])

/-- Headers set on the POST request (lines 179-181).  The multipart boundary is
    randomly generated by Go; the model keeps the media type only. -/
def uploadHeaders (token : String) : List (String × String) :=
  [("Content-Type", "multipart/form-data"), ("X-Auth-Token", token),
   ("Accept", "application/json")]

/-- Events of a fully attempted upload: open the image, open the signature when
    one was supplied, POST, then the deferred closes in LIFO order. -/
def sessionEvents (env : Env) (us : UpdateService) (token : String)
    (req : UpdateRequest) : List Event :=
  [Event.openFile req.localFile]
  ++ (if req.signatureFile != "" then [Event.openFile req.signatureFile] else [])
  ++ [Event.netPost us.HTTPPushURI (uploadValues token env req)
        (uploadHeaders token)]
  ++ (if req.signatureFile != "" then [Event.closeFile req.signatureFile] else [])
  ++ [Event.closeFile req.localFile]

/-- The body of the upload branch (lines 130-191), from the image open to the
    POST.  On a failing image open nothing was acquired; on a failing signature
    open the deferred close of the already-open image runs before the error
    return. -/
def uploadSession (env : Env) (us : UpdateService) (token : String)
    (req : UpdateRequest) : Option UpdateError × List Event :=
  if env.openOk req.localFile then
    if req.signatureFile != "" && !(env.openOk req.signatureFile) then
      (some UpdateError.signatureFileOpen,
       [Event.openFile req.localFile, Event.closeFile req.localFile])
    else
      (if env.postOk then none else some UpdateError.postFailed,
       sessionEvents env us token req)
  else (some UpdateError.localFileOpen, [])

/-- The `d.Set` calls of lines 95-106: default the optional attributes when
    `GetOk` reported the zero value, then reset `task_uri` to the empty
    string. -/
def applyLocalSets (d0 : ResourceState) (req : UpdateRequest) : ResourceState :=
  let d1 := if req.signatureFile = "" then
      { d0 with signatureFileAttr := some "" } else d0
  let d2 := if req.updateRecoverySet = false then
      { d1 with updateRecoverySetAttr := some false } else d1
  { d2 with taskURI := some "" }

/-- All network calls issued before the version gate: the inventory-collection
    `GET` followed by the member-resolution `GET`s. -/
def inventoryEvents (env : Env) (us : UpdateService) (links : List String) :
    List Event :=
  Event.netGet us.FirmwareInventory :: firmwaresEvents env.getFirmware links

/-- Lines 193-195: `d.SetId(firmware.ODataID)` when a record matched. -/
def setId (firmware : Option Firmware) (d : ResourceState) : ResourceState :=
  match firmware with
  | some f => { d with id := f.ODataID }
  | none => d

/-- The handler from the version gate on (lines 121-198). -/
def runUpdateGate (env : Env) (us : UpdateService) (links : List String)
    (d : ResourceState) (req : UpdateRequest) (firmware : Option Firmware) :
    UpdateResult :=
  if needsUpload firmware req.version then
    match env.session with
    | none => ⟨some UpdateError.sessionFetch, inventoryEvents env us links, d⟩
    | some token =>
      let up := uploadSession env us token req
      match up.1 with
      | some e => ⟨some e, inventoryEvents env us links ++ up.2, d⟩
      | none =>
        ⟨none, inventoryEvents env us links ++ up.2, setId firmware d⟩
  else ⟨none, inventoryEvents env us links, setId firmware d⟩

/-- The handler from the member resolution on (lines 108-198), including the
    `error fetching firmware details` branch kept verbatim from the source. -/
def runUpdateResolved (env : Env) (us : UpdateService) (links : List String)
    (d : ResourceState) (req : UpdateRequest) : UpdateResult :=
  match (Firmwares env.getFirmware links).2 with
  | some _ => ⟨some UpdateError.firmwareDetails, inventoryEvents env us links, d⟩
  | none =>
    runUpdateGate env us links d req
      (findFirmware req.name (Firmwares env.getFirmware links).1)

/-- `resourceRedfishFirmwareUpdate` (lines 80-199).  `GetFirmwareInventory`
    fails either before its `GET` (a failing `UpdateService()`) or at the
    `GET`/decode of the inventory collection. -/
def runUpdate (env : Env) (d0 : ResourceState) (req : UpdateRequest) :
    UpdateResult :=
  match env.updateService with
  | none => ⟨some UpdateError.inventoryFetch, [], d0⟩
  | some us =>
    match env.getInventory us.FirmwareInventory with
    | none =>
      ⟨some UpdateError.inventoryFetch, [Event.netGet us.FirmwareInventory], d0⟩
    | some links =>
      runUpdateResolved env us links (applyLocalSets d0 req) req

/-- `resourceRedfishFirmwareRead` (lines 217-254). -/
def runRead (env : Env) (d0 : ResourceState) (req : UpdateRequest) :
    UpdateResult :=
  match env.updateService with
  | none => ⟨some UpdateError.inventoryFetch, [], d0⟩
  | some us =>
    match env.getInventory us.FirmwareInventory with
    | none =>
      ⟨some UpdateError.inventoryFetch, [Event.netGet us.FirmwareInventory], d0⟩
    | some links =>
      match (Firmwares env.getFirmware links).2 with
      | some _ =>
        ⟨some UpdateError.firmwareDetails, inventoryEvents env us links, d0⟩
      | none =>
        match findFirmware req.name (Firmwares env.getFirmware links).1 with
        | none => ⟨none, inventoryEvents env us links, d0⟩
        | some f =>
          ⟨none, inventoryEvents env us links,
           { d0 with versionAttr := some f.Version, id := f.ODataID }⟩

/-- Recognizes the POST to the push endpoint. -/
def isNetPost : Event → Bool
  | Event.netPost _ _ _ => true
  | _ => false

/-- Recognizes any network call. -/
def isNet : Event → Bool
  | Event.netGet _ => true
  | Event.netPost _ _ _ => true
  | _ => false

/-- Part names carried by a POST event (empty for every other event). -/
def partNames : Event → List String
  | Event.netPost _ parts _ => parts.map Prod.fst
  | _ => []

/-- Number of POSTs to the push endpoint in a trace. -/
def countPosts (evs : List Event) : Nat := (evs.filter isNetPost).length

/-- Total network-call counter over a trace. -/
def netCount (evs : List Event) : Nat := (evs.filter isNet).length

/-- Whether the invocation issued the upload POST. -/
def uploadPerformed (r : UpdateResult) : Bool := countPosts r.events != 0

/-! JSON well-formedness.  A recursive-descent parser for a sound subset of
    RFC 8259 JSON: objects, double-quoted strings without escape sequences,
    `true` / `false` / `null`, and unsigned integer literals.  Everything this
    parser accepts is well-formed JSON; in particular an object member must
    start with a double-quoted string, exactly as in the full grammar, so a
    rejection at that position is a rejection under full JSON as well. -/

/-- Double quote ('"'). -/
def dquoteC : Char := Char.ofNat 34

/-- Backslash. -/
def backslashC : Char := Char.ofNat 92

/-- Opening brace. -/
def lbraceC : Char := Char.ofNat 123

/-- Closing brace. -/
def rbraceC : Char := Char.ofNat 125

/-- Colon. -/
def colonC : Char := Char.ofNat 58

/-- Comma. -/
def commaC : Char := Char.ofNat 44

/-- JSON insignificant whitespace (space, tab, newline, carriage return). -/
def isWs (c : Char) : Bool :=
  c = ' ' || c = Char.ofNat 9 || c = Char.ofNat 10 || c = Char.ofNat 13

/-- Drop leading whitespace. -/
def skipWs : List Char → List Char
  | [] => []
  | c :: cs => if isWs c then skipWs cs else c :: cs

/-- JSON values of the supported subset. -/
inductive JValue where
  | null : JValue
  | jbool : Bool → JValue
  | num : Nat → JValue
  | str : String → JValue
  | obj : List (String × JValue) → JValue

/-- Body of a string literal after the opening quote: plain characters up to
    the closing quote; escape sequences are outside the subset. -/
def strBody : List Char → Option (List Char × List Char)
  | [] => none
  | c :: cs =>
    if c = dquoteC then some ([], cs)
    else if c = backslashC then none
    else
      match strBody cs with
      | none => none
      | some (body, rest) => some (c :: body, rest)

/-- A double-quoted string literal. -/
def parseStrLit : List Char → Option (String × List Char)
  | [] => none
  | c :: cs =>
    if c = dquoteC then
      match strBody cs with
      | none => none
      | some (body, rest) => some (String.mk body, rest)
    else none

/-- Accumulate decimal digits. -/
def digitsAux : List Char → Nat → Nat × List Char
  | [], acc => (acc, [])
  | c :: cs, acc =>
    if c.isDigit then digitsAux cs (acc * 10 + (c.toNat - 48)) else (acc, c :: cs)

/-- An unsigned integer literal (at least one digit). -/
def parseNatLit : List Char → Option (Nat × List Char)
  | [] => none
  | c :: cs =>
    if c.isDigit then some (digitsAux cs (c.toNat - 48)) else none

mutual

/-- A JSON value; the fuel bounds the nesting depth. -/
def parseVal : Nat → List Char → Option (JValue × List Char)
  | 0, _ => none
  | fuel + 1, cs =>
    match skipWs cs with
    | [] => none
    | c :: rest =>
      if c = lbraceC then
        match skipWs rest with
        | [] => none
        | d :: rest2 =>
          if d = rbraceC then some (JValue.obj [], rest2)
          else
            match parseMembers fuel (d :: rest2) with
            | none => none
            | some (fields, rest3) => some (JValue.obj fields, rest3)
      else if c = dquoteC then
        match parseStrLit (c :: rest) with
        | none => none
        | some (s, rest2) => some (JValue.str s, rest2)
      else if c = 't' then
        match rest with
        | 'r' :: 'u' :: 'e' :: rest2 => some (JValue.jbool true, rest2)
        | _ => none
      else if c = 'f' then
        match rest with
        | 'a' :: 'l' :: 's' :: 'e' :: rest2 => some (JValue.jbool false, rest2)
        | _ => none
      else if c = 'n' then
        match rest with
        | 'u' :: 'l' :: 'l' :: rest2 => some (JValue.null, rest2)
        | _ => none
      else
        match parseNatLit (c :: rest) with
        | none => none
        | some (n, rest2) => some (JValue.num n, rest2)

/-- One or more object members: `"key" : value` separated by commas and
    terminated by the closing brace.  A member must start with a double-quoted
    string, as in full JSON. -/
def parseMembers (fuel : Nat) (cs : List Char) :
    Option (List (String × JValue) × List Char) :=
  match fuel with
  | 0 => none
  | fuel + 1 =>
    match parseStrLit (skipWs cs) with
    | none => none
    | some (key, r1) =>
      match skipWs r1 with
      | [] => none
      | c :: r2 =>
        if c = colonC then
          match parseVal fuel r2 with
          | none => none
          | some (v, r3) =>
            match skipWs r3 with
            | [] => none
            | d :: r4 =>
              if d = commaC then
                match parseMembers fuel r4 with
                | none => none
                | some (fields, r5) => some ((key, v) :: fields, r5)
              else if d = rbraceC then some ([(key, v)], r4)
              else none
        else none

end

/-- Parse a whole string as one JSON value with nothing but whitespace after
    it; `none` means the string is not (subset-)well-formed JSON. -/
def jparse (s : String) : Option JValue :=
  match parseVal (s.length + 1) s.data with
  | none => none
  | some (v, rest) => if (skipWs rest).isEmpty then some v else none

/-! Model of the sibling implementation's parameters construction
    (src/redfish/resource_redfish_firmware.go lines 138-149): a
    `map[string]interface{}` with four scalar entries serialized by
    `encoding/json.Marshal`, which emits map keys in sorted order and needs no
    character escaping for these keys and values. -/

/-- Scalar values occurring in the Go parameters map. -/
inductive GoParam where
  | pbool : Bool → GoParam
  | pstr : String → GoParam
  | pnum : Nat → GoParam
deriving DecidableEq, Repr

/-- The parameters map in Go source order (lines 138-143). -/
def parametersMapSrc : List (String × GoParam) :=
  [("UpdateRepository", GoParam.pbool true), ("UpdateTarget", GoParam.pbool true),
   ("ETag", GoParam.pstr "sometag"), ("Section", GoParam.pnum 0)]

/-- Wrap a string in double quotes. -/
def quoteStr (s : String) : String :=
  String.singleton dquoteC ++ s ++ String.singleton dquoteC

/-- JSON rendering of one scalar. -/
def serializeParam : GoParam → String
  | GoParam.pbool true => "true"
  | GoParam.pbool false => "false"
  | GoParam.pstr s => quoteStr s
  | GoParam.pnum n => toString n

/-- Lexicographic order on character lists by code point (for ASCII keys this
    coincides with Go's byte-wise string order). -/
def charListLt : List Char → List Char → Bool
  | [], [] => false
  | [], _ :: _ => true
  | _ :: _, [] => false
  | c :: cs, d :: ds =>
    if Nat.blt c.toNat d.toNat then true
    else if Nat.blt d.toNat c.toNat then false
    else charListLt cs ds

/-- Byte-wise string order used by Go when serializing map keys. -/
def strLtB (a b : String) : Bool := charListLt a.data b.data

/-- Insert one field into a key-sorted field list. -/
def insertField (p : String × GoParam) :
    List (String × GoParam) → List (String × GoParam)
  | [] => [p]
  | q :: qs => if strLtB p.1 q.1 then p :: q :: qs else q :: insertField p qs

/-- Sort fields by key (Go's `json.Marshal` emits map keys sorted). -/
def sortFields : List (String × GoParam) → List (String × GoParam)
  | [] => []
  | p :: ps => insertField p (sortFields ps)

/-- Render `"key":value` pairs joined by commas. -/
def renderFields : List (String × GoParam) → String
  | [] => ""
  | [p] => quoteStr p.1 ++ String.singleton colonC ++ serializeParam p.2
  | p :: q :: rest =>
    quoteStr p.1 ++ String.singleton colonC ++ serializeParam p.2
      ++ String.singleton commaC ++ renderFields (q :: rest)

/-- `encoding/json.Marshal` of a flat string-keyed map of scalars. -/
def goMarshalMap (fields : List (String × GoParam)) : String :=
  String.singleton lbraceC ++ renderFields (sortFields fields)
    ++ String.singleton rbraceC

/-! Helper lemmas about the embedded operations. -/

theorem firmwares_snd_none (get : String → Option Firmware)
    (links : List String) : (Firmwares get links).2 = none := by
  induction links with
  | nil => rfl
  | cons l ls ih =>
    simp only [Firmwares]
    cases get l with
    | none => rfl
    | some fw => simpa using ih

theorem mem_firmwaresEvents (get : String → Option Firmware)
    (links : List String) :
    ∀ e ∈ firmwaresEvents get links, ∃ u, e = Event.netGet u := by
  induction links with
  | nil => intro e he; simp [firmwaresEvents] at he
  | cons l ls ih =>
    intro e he
    simp only [firmwaresEvents] at he
    cases hg : get l with
    | none =>
      rw [hg] at he
      simp at he
      exact ⟨l, he⟩
    | some fw =>
      rw [hg] at he
      simp at he
      cases he with
      | inl h => exact ⟨l, h⟩
      | inr h => exact ih e h

theorem mem_inventoryEvents (env : Env) (us : UpdateService)
    (links : List String) :
    ∀ e ∈ inventoryEvents env us links, ∃ u, e = Event.netGet u := by
  intro e he
  simp only [inventoryEvents, List.mem_cons] at he
  cases he with
  | inl h => exact ⟨us.FirmwareInventory, h⟩
  | inr h => exact mem_firmwaresEvents env.getFirmware links e h

theorem countPosts_inventoryEvents (env : Env) (us : UpdateService)
    (links : List String) : countPosts (inventoryEvents env us links) = 0 := by
  unfold countPosts
  rw [List.length_eq_zero, List.filter_eq_nil_iff]
  intro e he
  obtain ⟨u, rfl⟩ := mem_inventoryEvents env us links e he
  simp [isNetPost]

theorem netCount_inventoryEvents (env : Env) (us : UpdateService)
    (links : List String) :
    netCount (inventoryEvents env us links)
      = 1 + (firmwaresEvents env.getFirmware links).length := by
  unfold netCount
  rw [List.filter_eq_self.mpr]
  · simp [inventoryEvents, Nat.add_comm]
  · intro e he
    obtain ⟨u, rfl⟩ := mem_inventoryEvents env us links e he
    simp [isNet]

theorem count_inventoryEvents_zero (env : Env) (us : UpdateService)
    (links : List String) (e : Event) (he : isNet e = false) :
    (inventoryEvents env us links).count e = 0 := by
  rw [List.count_eq_zero]
  intro hmem
  obtain ⟨u, rfl⟩ := mem_inventoryEvents env us links e hmem
  simp [isNet] at he

theorem runUpdate_eq_resolved (env : Env) (d0 : ResourceState)
    (req : UpdateRequest) (us : UpdateService) (links : List String)
    (hus : env.updateService = some us)
    (hinv : env.getInventory us.FirmwareInventory = some links) :
    runUpdate env d0 req
      = runUpdateResolved env us links (applyLocalSets d0 req) req := by
  simp [runUpdate, hus, hinv]

theorem runUpdateResolved_eq (env : Env) (us : UpdateService)
    (links : List String) (d : ResourceState) (req : UpdateRequest) :
    runUpdateResolved env us links d req
      = runUpdateGate env us links d req
          (findFirmware req.name (Firmwares env.getFirmware links).1) := by
  unfold runUpdateResolved
  rw [firmwares_snd_none]

theorem runUpdateGate_skip (env : Env) (us : UpdateService)
    (links : List String) (d : ResourceState) (req : UpdateRequest)
    (f : Option Firmware) (h : needsUpload f req.version = false) :
    runUpdateGate env us links d req f
      = ⟨none, inventoryEvents env us links, setId f d⟩ := by
  simp [runUpdateGate, h]

theorem uploadSession_localFail (env : Env) (us : UpdateService)
    (token : String) (req : UpdateRequest)
    (h : env.openOk req.localFile = false) :
    uploadSession env us token req = (some UpdateError.localFileOpen, []) := by
  simp [uploadSession, h]

theorem uploadSession_sigFail (env : Env) (us : UpdateService)
    (token : String) (req : UpdateRequest)
    (hl : env.openOk req.localFile = true) (hs : req.signatureFile ≠ "")
    (hsig : env.openOk req.signatureFile = false) :
    uploadSession env us token req
      = (some UpdateError.signatureFileOpen,
         [Event.openFile req.localFile, Event.closeFile req.localFile]) := by
  simp [uploadSession, hl, hs, hsig]

theorem uploadSession_go (env : Env) (us : UpdateService) (token : String)
    (req : UpdateRequest) (hl : env.openOk req.localFile = true)
    (hsig : req.signatureFile ≠ "" → env.openOk req.signatureFile = true) :
    uploadSession env us token req
      = (if env.postOk then none else some UpdateError.postFailed,
         sessionEvents env us token req) := by
  by_cases hs : req.signatureFile = ""
  · simp [uploadSession, hl, hs]
  · simp [uploadSession, hl, hs, hsig hs]

theorem countPosts_append (a b : List Event) :
    countPosts (a ++ b) = countPosts a + countPosts b := by
  simp [countPosts, List.filter_append]

theorem countPosts_sessionEvents (env : Env) (us : UpdateService)
    (token : String) (req : UpdateRequest) :
    countPosts (sessionEvents env us token req) = 1 := by
  unfold countPosts sessionEvents
  by_cases hs : req.signatureFile = "" <;>
    simp [hs, List.filter_append, isNetPost]

theorem runUpdateGate_session (env : Env) (us : UpdateService)
    (links : List String) (d : ResourceState) (req : UpdateRequest)
    (f : Option Firmware) (token : String)
    (h : needsUpload f req.version = true) (hs : env.session = some token) :
    runUpdateGate env us links d req f
      = match (uploadSession env us token req).1 with
        | some e =>
          ⟨some e,
           inventoryEvents env us links ++ (uploadSession env us token req).2, d⟩
        | none =>
          ⟨none,
           inventoryEvents env us links ++ (uploadSession env us token req).2,
           setId f d⟩ := by
  simp [runUpdateGate, h, hs]

/-! Concrete fixtures for the closed instantiations below. -/

/-- A resolved BIOS record at version 1.0. -/
def fwBios10 : Firmware :=
  ⟨"/redfish/v1/UpdateService/FirmwareInventory/1", "System BIOS", "BIOS",
   "1.0"⟩

/-- Update-service URIs of the test device. -/
def usFix : UpdateService :=
  ⟨"/redfish/v1/UpdateService/FirmwareInventory", "/cgi-bin/push"⟩

/-- A fresh resource state. -/
def d0Fix : ResourceState := ⟨"", none, none, none, none⟩

/-- Inventory collection with a single member link. -/
def invFix : String → Option (List String) :=
  fun u => if u = usFix.FirmwareInventory then some ["m1"] else none

/-- Member resolution of the test device. -/
def getFix : String → Option Firmware :=
  fun l => if l = "m1" then some fwBios10 else none

/-- Device and filesystem fully cooperative. -/
def envHappy : Env :=
  ⟨some usFix, invFix, getFix, some "tok", fun _ => true, fun _ => "bytes",
   true⟩

/-- Every local file open fails. -/
def envOpenFail : Env :=
  ⟨some usFix, invFix, getFix, some "tok", fun _ => false, fun _ => "bytes",
   true⟩

/-- Only the firmware image opens; the signature open fails. -/
def envSigFail : Env :=
  ⟨some usFix, invFix, getFix, some "tok", fun p => p == "/fw/img.bin",
   fun _ => "bytes", true⟩

/-- Request matching the inventory record exactly (gate closed). -/
def reqSkip : UpdateRequest := ⟨"BIOS", "1.0", "/fw/img.bin", "", false⟩

/-- Request for a newer version with a signature file (gate open). -/
def reqUp : UpdateRequest :=
  ⟨"BIOS", "2.0", "/fw/img.bin", "/fw/img.sig", false⟩

/-- Request for a newer version without a signature file (gate open). -/
def reqUpNoSig : UpdateRequest := ⟨"BIOS", "2.0", "/fw/img.bin", "", false⟩

/-- Records for the member-resolution truncation scenario. -/
def fwA : Firmware := ⟨"/fw/a", "", "A", "1"⟩

/-- A resolvable record living after the failing member. -/
def fwC : Firmware := ⟨"/fw/c", "", "C", "1"⟩

/-- Member resolution that fails exactly on link "b". -/
def getPartial : String → Option Firmware :=
  fun l => if l = "a" then some fwA else if l = "c" then some fwC else none

/-! Claim theorems. -/

/-- C2 (counterexample): with member links [a, b, c] where only b fails to
    resolve, the error is swallowed but the resolvable member c occurring
    after the failing b does NOT appear in the result - `Firmwares` returns
    only [fwA], refuting the claim that all other members, including those
    after the failing one, still appear. -/
theorem firmwares_drops_members_after_failure_cex :
    getPartial "b" = none
    ∧ getPartial "c" = some fwC
    ∧ (Firmwares getPartial ["a", "b", "c"]).2 = none
    ∧ (Firmwares getPartial ["a", "b", "c"]).1 = [fwA]
    ∧ fwC ∉ (Firmwares getPartial ["a", "b", "c"]).1 := by
  refine ⟨rfl, rfl, rfl, rfl, ?_⟩
  intro h
  simp [Firmwares, getPartial, fwA, fwC] at h

/-- C2 (amended): a member-resolution failure is swallowed - `Firmwares`
    returns a nil error - but resolution stops at the first failing member:
    the result is exactly the resolved prefix strictly before the first
    failure, and the failing member together with every member after it is
    omitted. -/
theorem firmwares_prefix_before_first_failure
    (get : String → Option Firmware) (links : List String) :
    Firmwares get links
      = ((links.takeWhile fun l => (get l).isSome).filterMap get, none) := by
  induction links with
  | nil => rfl
  | cons l ls ih =>
    simp only [Firmwares, List.takeWhile_cons]
    cases hg : get l with
    | none => simp [hg]
    | some fw => simp [hg, List.filterMap_cons, ih]

/-- C3 (counterexample): a request whose local_file cannot be opened does fail
    with a LocalIOError, but the network-call counter observed across the
    whole invocation is 2 (the inventory-collection GET and one member GET
    precede the version gate), not zero as the claim requires. -/
theorem local_open_fail_network_nonzero_cex :
    (runUpdate envOpenFail d0Fix reqUpNoSig).error
        = some UpdateError.localFileOpen
    ∧ isLocalIOError UpdateError.localFileOpen = true
    ∧ netCount (runUpdate envOpenFail d0Fix reqUpNoSig).events = 2
    ∧ netCount (runUpdate envOpenFail d0Fix reqUpNoSig).events ≠ 0 := by
  refine ⟨rfl, rfl, rfl, ?_⟩
  intro h
  rw [show netCount (runUpdate envOpenFail d0Fix reqUpNoSig).events = 2
        from rfl] at h
  exact Nat.succ_ne_zero 1 h

/-- C3 (amended): when the version gate decided an update is needed and the
    local_file open fails, the operation fails with a LocalIOError and no
    POST is ever issued - and no network call at all happens from the gate
    onward - but the pre-gate inventory fetch and member resolutions are
    network calls of the same invocation, so the invocation-wide counter
    equals 1 plus the member-resolution GETs rather than zero. -/
theorem local_open_fail_no_post (env : Env) (d0 : ResourceState)
    (req : UpdateRequest) (us : UpdateService) (links : List String)
    (token : String)
    (hus : env.updateService = some us)
    (hinv : env.getInventory us.FirmwareInventory = some links)
    (hsess : env.session = some token)
    (hgate : needsUpload
        (findFirmware req.name (Firmwares env.getFirmware links).1)
        req.version = true)
    (hopen : env.openOk req.localFile = false) :
    (runUpdate env d0 req).error = some UpdateError.localFileOpen
    ∧ countPosts (runUpdate env d0 req).events = 0
    ∧ netCount (runUpdate env d0 req).events
        = 1 + (firmwaresEvents env.getFirmware links).length := by
  rw [runUpdate_eq_resolved env d0 req us links hus hinv, runUpdateResolved_eq,
      runUpdateGate_session _ _ _ _ _ _ token hgate hsess,
      uploadSession_localFail _ _ _ _ hopen]
  refine ⟨rfl, ?_, ?_⟩
  · show countPosts (inventoryEvents env us links ++ []) = 0
    rw [List.append_nil]
    exact countPosts_inventoryEvents env us links
  · show netCount (inventoryEvents env us links ++ [])
        = 1 + (firmwaresEvents env.getFirmware links).length
    rw [List.append_nil]
    exact netCount_inventoryEvents env us links

/-- C3 (witness for the amended theorem): the fully concrete failing-open
    scenario. -/
theorem local_open_fail_no_post_witness :
    (runUpdate envOpenFail d0Fix reqUpNoSig).error
        = some UpdateError.localFileOpen
    ∧ countPosts (runUpdate envOpenFail d0Fix reqUpNoSig).events = 0
    ∧ netCount (runUpdate envOpenFail d0Fix reqUpNoSig).events
        = 1 + (firmwaresEvents envOpenFail.getFirmware ["m1"]).length :=
  local_open_fail_no_post envOpenFail d0Fix reqUpNoSig usFix ["m1"] "tok"
    rfl rfl rfl rfl rfl

/-- C4: the `parameters` part sent by the part_000 implementation is the fixed
    single-quoted string of line 140, which is NOT well-formed JSON - a JSON
    object member must begin with a double-quoted name, and the parser (a
    sound subset of RFC 8259) rejects it - whereas `json.Marshal` of the same
    four fields in the sibling file (resource_redfish_firmware.go lines
    138-149) produces well-formed JSON parsing to exactly the claimed fields:
    UpdateRepository = true, UpdateTarget = true, an ETag placeholder string,
    and Section = 0.  The sibling construction documents the intent the
    part_000 literal fails to meet. -/
theorem parameters_part_not_wellformed_json :
    jparse parametersString = none
    ∧ jparse (goMarshalMap parametersMapSrc)
        = some (JValue.obj
            [("ETag", JValue.str "sometag"), ("Section", JValue.num 0),
             ("UpdateRepository", JValue.jbool true),
             ("UpdateTarget", JValue.jbool true)]) :=
  ⟨rfl, rfl⟩

/-- C1: the update operation selects the first record in resolution order
    whose Name equals the requested name (records after the first match are
    ignored), and - whenever session, file opens and POST succeed - it
    performs the upload iff no record matched or the matched record's Version
    differs from the requested version by exact string inequality; on an
    exact version match the upload is skipped. -/
theorem update_first_match_version_gate (env : Env) (d0 : ResourceState)
    (req : UpdateRequest) (us : UpdateService) (links : List String)
    (token : String)
    (hus : env.updateService = some us)
    (hinv : env.getInventory us.FirmwareInventory = some links)
    (hsess : env.session = some token)
    (hopen : ∀ p, env.openOk p = true)
    (hpost : env.postOk = true) :
    (∀ (la lb : List Firmware) (f : Firmware), f.Name = req.name →
        (∀ g ∈ la, g.Name ≠ req.name) →
        findFirmware req.name (la ++ f :: lb) = some f)
    ∧ uploadPerformed (runUpdate env d0 req)
        = needsUpload
            (findFirmware req.name (Firmwares env.getFirmware links).1)
            req.version := by
  constructor
  · intro la lb f hf hla
    induction la with
    | nil => simp [findFirmware, hf]
    | cons g gs ih =>
      have hg : g.Name ≠ req.name := hla g (List.mem_cons_self g gs)
      simp only [List.cons_append, findFirmware, if_neg hg]
      exact ih fun x hx => hla x (List.mem_cons_of_mem g hx)
  · rw [runUpdate_eq_resolved env d0 req us links hus hinv,
        runUpdateResolved_eq]
    cases hgate : needsUpload
        (findFirmware req.name (Firmwares env.getFirmware links).1)
        req.version with
    | false =>
      rw [runUpdateGate_skip _ _ _ _ _ _ hgate]
      simp [uploadPerformed, countPosts_inventoryEvents]
    | true =>
      rw [runUpdateGate_session _ _ _ _ _ _ token hgate hsess,
          uploadSession_go _ _ _ _ (hopen _) (fun _ => hopen _), hpost]
      show uploadPerformed
          ⟨none, inventoryEvents env us links ++ sessionEvents env us token req,
           setId (findFirmware req.name (Firmwares env.getFirmware links).1)
             (applyLocalSets d0 req)⟩ = true
      simp [uploadPerformed, countPosts_append, countPosts_inventoryEvents,
        countPosts_sessionEvents]

/-- C1 (witness): the concrete gate-open scenario with a signature file. -/
theorem update_first_match_version_gate_witness :
    (∀ (la lb : List Firmware) (f : Firmware), f.Name = reqUp.name →
        (∀ g ∈ la, g.Name ≠ reqUp.name) →
        findFirmware reqUp.name (la ++ f :: lb) = some f)
    ∧ uploadPerformed (runUpdate envHappy d0Fix reqUp)
        = needsUpload
            (findFirmware reqUp.name (Firmwares envHappy.getFirmware ["m1"]).1)
            reqUp.version :=
  update_first_match_version_gate envHappy d0Fix reqUp usFix ["m1"] "tok"
    rfl rfl rfl (fun _ => rfl) rfl

/-- C5: every POST the update operation issues carries exactly the multipart
    parts sessionKey, parameters and file when the request's signature_file
    is the empty string, and exactly sessionKey, parameters, file and compsig
    when it is non-empty (compsig present iff a signature path was
    supplied). -/
theorem multipart_part_names (env : Env) (d0 : ResourceState)
    (req : UpdateRequest) :
    ((runUpdate env d0 req).events.filter isNetPost).all
      (fun e => partNames e
        == (if req.signatureFile = "" then ["sessionKey", "parameters", "file"]
            else ["sessionKey", "parameters", "file", "compsig"])) = true := by
  cases hus : env.updateService with
  | none => simp [runUpdate, hus]
  | some us =>
    cases hinv : env.getInventory us.FirmwareInventory with
    | none => simp [runUpdate, hus, hinv, isNetPost]
    | some links =>
      rw [runUpdate_eq_resolved env d0 req us links hus hinv,
          runUpdateResolved_eq]
      have hinvev : (inventoryEvents env us links).filter isNetPost = [] := by
        rw [List.filter_eq_nil_iff]
        intro e he
        obtain ⟨u, rfl⟩ := mem_inventoryEvents env us links e he
        simp [isNetPost]
      cases hgate : needsUpload
          (findFirmware req.name (Firmwares env.getFirmware links).1)
          req.version with
      | false =>
        rw [runUpdateGate_skip _ _ _ _ _ _ hgate]
        simp [hinvev]
      | true =>
        cases hsess : env.session with
        | none => simp [runUpdateGate, hgate, hsess, hinvev]
        | some token =>
          rw [runUpdateGate_session _ _ _ _ _ _ token hgate hsess]
          cases hlocal : env.openOk req.localFile with
          | false =>
            rw [uploadSession_localFail _ _ _ _ hlocal]
            simp [hinvev]
          | true =>
            by_cases hs : req.signatureFile = ""
            · rw [uploadSession_go _ _ _ _ hlocal (fun h => absurd hs h)]
              cases hpost : env.postOk <;>
                simp [hpost, List.filter_append, hinvev, sessionEvents,
                  isNetPost, hs, partNames, uploadValues]
            · cases hsig : env.openOk req.signatureFile with
              | false =>
                rw [uploadSession_sigFail _ _ _ _ hlocal hs hsig]
                simp [List.filter_append, hinvev, isNetPost]
              | true =>
                rw [uploadSession_go _ _ _ _ hlocal (fun _ => hsig)]
                cases hpost : env.postOk <;>
                  simp [hpost, List.filter_append, hinvev, sessionEvents,
                    isNetPost, hs, partNames, uploadValues]

/-- C6: when the inventory holds a record whose Name and Version both equal
    the requested pair, the operation skips the update - no POST is issued,
    no error is reported (the skipped outcome), and the identifier recorded
    for the caller equals that record's ODataID. -/
theorem update_skip_on_version_match (env : Env) (d0 : ResourceState)
    (req : UpdateRequest) (us : UpdateService) (links : List String)
    (f : Firmware)
    (hus : env.updateService = some us)
    (hinv : env.getInventory us.FirmwareInventory = some links)
    (hfind : findFirmware req.name (Firmwares env.getFirmware links).1
        = some f)
    (hver : f.Version = req.version) :
    (runUpdate env d0 req).error = none
    ∧ uploadPerformed (runUpdate env d0 req) = false
    ∧ (runUpdate env d0 req).state.id = f.ODataID := by
  have hgate : needsUpload
      (findFirmware req.name (Firmwares env.getFirmware links).1)
      req.version = false := by
    rw [hfind]
    simp [needsUpload, hver]
  rw [runUpdate_eq_resolved env d0 req us links hus hinv,
      runUpdateResolved_eq, runUpdateGate_skip _ _ _ _ _ _ hgate, hfind]
  refine ⟨rfl, ?_, ?_⟩
  · simp [uploadPerformed, countPosts_inventoryEvents]
  · simp [setId]

/-- C6 (witness): BIOS at 1.0 requested while BIOS 1.0 is installed. -/
theorem update_skip_on_version_match_witness :
    (runUpdate envHappy d0Fix reqSkip).error = none
    ∧ uploadPerformed (runUpdate envHappy d0Fix reqSkip) = false
    ∧ (runUpdate envHappy d0Fix reqSkip).state.id = fwBios10.ODataID :=
  update_skip_on_version_match envHappy d0Fix reqSkip usFix ["m1"] fwBios10
    rfl rfl rfl rfl

/-- C7: when the firmware image opens but the non-empty signature_file fails
    to open, the operation fails with a LocalIOError (the signature-open
    error) and the already-open image handle is released exactly once: the
    trace holds exactly one open and exactly one close of the image path. -/
theorem update_sigfail_image_released (env : Env) (d0 : ResourceState)
    (req : UpdateRequest) (us : UpdateService) (links : List String)
    (token : String)
    (hus : env.updateService = some us)
    (hinv : env.getInventory us.FirmwareInventory = some links)
    (hsess : env.session = some token)
    (hgate : needsUpload
        (findFirmware req.name (Firmwares env.getFirmware links).1)
        req.version = true)
    (hlocal : env.openOk req.localFile = true)
    (hs : req.signatureFile ≠ "")
    (hsig : env.openOk req.signatureFile = false) :
    (runUpdate env d0 req).error = some UpdateError.signatureFileOpen
    ∧ isLocalIOError UpdateError.signatureFileOpen = true
    ∧ (runUpdate env d0 req).events.count (Event.openFile req.localFile) = 1
    ∧ (runUpdate env d0 req).events.count (Event.closeFile req.localFile)
        = 1 := by
  rw [runUpdate_eq_resolved env d0 req us links hus hinv,
      runUpdateResolved_eq, runUpdateGate_session _ _ _ _ _ _ token hgate hsess,
      uploadSession_sigFail _ _ _ _ hlocal hs hsig]
  refine ⟨rfl, rfl, ?_, ?_⟩
  · show (inventoryEvents env us links
        ++ [Event.openFile req.localFile, Event.closeFile req.localFile]).count
          (Event.openFile req.localFile) = 1
    rw [List.count_append,
        count_inventoryEvents_zero env us links
          (Event.openFile req.localFile) rfl]
    simp
  · show (inventoryEvents env us links
        ++ [Event.openFile req.localFile, Event.closeFile req.localFile]).count
          (Event.closeFile req.localFile) = 1
    rw [List.count_append,
        count_inventoryEvents_zero env us links
          (Event.closeFile req.localFile) rfl]
    simp

/-- C7 (witness): image opens, signature open fails, image handle released. -/
theorem update_sigfail_image_released_witness :
    (runUpdate envSigFail d0Fix reqUp).error
        = some UpdateError.signatureFileOpen
    ∧ isLocalIOError UpdateError.signatureFileOpen = true
    ∧ (runUpdate envSigFail d0Fix reqUp).events.count
        (Event.openFile reqUp.localFile) = 1
    ∧ (runUpdate envSigFail d0Fix reqUp).events.count
        (Event.closeFile reqUp.localFile) = 1 :=
  update_sigfail_image_released envSigFail d0Fix reqUp usFix ["m1"] "tok"
    rfl rfl rfl rfl rfl (by simp [reqUp]) rfl

theorem uploadSession_req_congr (env : Env) (us : UpdateService)
    (token : String) (n1 n2 v1 v2 l s : String) (bb1 bb2 : Bool) :
    uploadSession env us token ⟨n1, v1, l, s, bb1⟩
      = uploadSession env us token ⟨n2, v2, l, s, bb2⟩ := rfl

theorem runUpdateGate_events_congr (env : Env) (us : UpdateService)
    (links : List String) (d1 d2 : ResourceState)
    (n1 n2 v l s : String) (bb1 bb2 : Bool) (f : Option Firmware) :
    (runUpdateGate env us links d1 ⟨n1, v, l, s, bb1⟩ f).events
      = (runUpdateGate env us links d2 ⟨n2, v, l, s, bb2⟩ f).events := by
  unfold runUpdateGate
  cases hgate : needsUpload f v with
  | false => simp [hgate]
  | true =>
    simp only [hgate]
    cases hsess : env.session with
    | none => simp [hgate, hsess]
    | some token =>
      simp only [hgate, hsess]
      rw [uploadSession_req_congr env us token n2 n1 v v l s bb2 bb1]
      cases hup : (uploadSession env us token
          (⟨n1, v, l, s, bb1⟩ : UpdateRequest)).1 <;>
        simp [hup]

/-- C8: two update invocations that differ only in update_recovery_set
    produce the identical event trace - in particular the multipart body
    parts and the headers of the POST to the push endpoint contain no data
    derived from update_recovery_set. -/
theorem recovery_set_not_transmitted (env : Env) (d0 : ResourceState)
    (nm ver lf sf : String) (b1 b2 : Bool) :
    (runUpdate env d0 ⟨nm, ver, lf, sf, b1⟩).events
      = (runUpdate env d0 ⟨nm, ver, lf, sf, b2⟩).events := by
  cases hus : env.updateService with
  | none => simp [runUpdate, hus]
  | some us =>
    cases hinv : env.getInventory us.FirmwareInventory with
    | none => simp [runUpdate, hus, hinv]
    | some links =>
      rw [runUpdate_eq_resolved _ _ _ us links hus hinv,
          runUpdate_eq_resolved _ _ _ us links hus hinv,
          runUpdateResolved_eq, runUpdateResolved_eq]
      exact runUpdateGate_events_congr env us links _ _ nm nm ver lf sf b1 b2 _

theorem uploadSession_fst_ne_details (env : Env) (us : UpdateService)
    (token : String) (req : UpdateRequest) :
    (uploadSession env us token req).1
      ≠ some UpdateError.firmwareDetails := by
  unfold uploadSession
  cases h1 : env.openOk req.localFile with
  | false => simp [h1]
  | true =>
    simp only [h1]
    by_cases h2 : (req.signatureFile != "" && !env.openOk req.signatureFile)
        = true
    · simp [h2]
    · simp only [Bool.not_eq_true] at h2
      simp only [h2]
      cases h3 : env.postOk <;> simp [h3]

/-- C9: `Firmwares` always returns a nil error - on full success and on a
    member-resolution failure alike - so the "error fetching firmware
    details" branches of the update and read handlers are unreachable. -/
theorem firmwares_error_branches_unreachable :
    (∀ (get : String → Option Firmware) (links : List String),
        (Firmwares get links).2 = none)
    ∧ (∀ (env : Env) (d0 : ResourceState) (req : UpdateRequest),
        (runUpdate env d0 req).error ≠ some UpdateError.firmwareDetails)
    ∧ (∀ (env : Env) (d0 : ResourceState) (req : UpdateRequest),
        (runRead env d0 req).error ≠ some UpdateError.firmwareDetails) := by
  refine ⟨firmwares_snd_none, ?_, ?_⟩
  · intro env d0 req
    cases hus : env.updateService with
    | none => simp [runUpdate, hus]
    | some us =>
      cases hinv : env.getInventory us.FirmwareInventory with
      | none => simp [runUpdate, hus, hinv]
      | some links =>
        rw [runUpdate_eq_resolved env d0 req us links hus hinv,
            runUpdateResolved_eq]
        cases hgate : needsUpload
            (findFirmware req.name (Firmwares env.getFirmware links).1)
            req.version with
        | false =>
          rw [runUpdateGate_skip _ _ _ _ _ _ hgate]
          simp
        | true =>
          cases hsess : env.session with
          | none => simp [runUpdateGate, hgate, hsess]
          | some token =>
            rw [runUpdateGate_session _ _ _ _ _ _ token hgate hsess]
            have hne := uploadSession_fst_ne_details env us token req
            cases hup : (uploadSession env us token req).1 with
            | none => simp [hup]
            | some e =>
              rw [hup] at hne
              simp only [hup]
              intro h
              exact hne h
  · intro env d0 req
    cases hus : env.updateService with
    | none => simp [runRead, hus]
    | some us =>
      cases hinv : env.getInventory us.FirmwareInventory with
      | none => simp [runRead, hus, hinv]
      | some links =>
        simp only [runRead, hus, hinv]
        rw [firmwares_snd_none]
        cases hfind : findFirmware req.name
            (Firmwares env.getFirmware links).1 <;> simp [hfind]

theorem setId_taskURI (f : Option Firmware) (d : ResourceState) :
    (setId f d).taskURI = d.taskURI := by
  cases f <;> simp [setId]

theorem applyLocalSets_taskURI (d0 : ResourceState) (req : UpdateRequest) :
    (applyLocalSets d0 req).taskURI = some "" := by
  simp [applyLocalSets]

/-- C10: whenever the invocation reaches the version gate (the inventory
    fetch succeeded), task_uri is set to the empty string and never populated
    afterwards - on every subsequent path, including a successful upload
    whose response would carry a task reference, the recorded task reference
    stays the empty string. -/
theorem task_uri_always_empty (env : Env) (d0 : ResourceState)
    (req : UpdateRequest) (us : UpdateService) (links : List String)
    (hus : env.updateService = some us)
    (hinv : env.getInventory us.FirmwareInventory = some links) :
    (runUpdate env d0 req).state.taskURI = some "" := by
  rw [runUpdate_eq_resolved env d0 req us links hus hinv, runUpdateResolved_eq]
  cases hgate : needsUpload
      (findFirmware req.name (Firmwares env.getFirmware links).1)
      req.version with
  | false =>
    rw [runUpdateGate_skip _ _ _ _ _ _ hgate]
    show (setId _ (applyLocalSets d0 req)).taskURI = some ""
    rw [setId_taskURI, applyLocalSets_taskURI]
  | true =>
    cases hsess : env.session with
    | none => simp [runUpdateGate, hgate, hsess, applyLocalSets_taskURI]
    | some token =>
      rw [runUpdateGate_session _ _ _ _ _ _ token hgate hsess]
      cases hup : (uploadSession env us token req).1 <;>
        simp [hup, setId_taskURI, applyLocalSets_taskURI]

/-- C10 (witness): a successful upload still records an empty task_uri. -/
theorem task_uri_always_empty_witness :
    (runUpdate envHappy d0Fix reqUp).state.taskURI = some "" :=
  task_uri_always_empty envHappy d0Fix reqUp usFix ["m1"] rfl rfl
